import Mathlib

/-!
Verification development for the Code-to-Mermaid generator
(`mermaidgen.ts`): a static-analysis script that scans server and client
source files with regular-expression heuristics, builds a component /
interaction model, and renders it as Mermaid graph text.

The embedding below is a shallow, executable translation of the script:

* JavaScript strings are `String` (lists of characters); the specific
  regular expressions used by the script are simple enough to be modelled
  exactly by character-list scanners, including the backtracking behaviour
  of the optional qualifier groups in the constructor-parameter pattern.
* The JavaScript `Map` (insertion-ordered, last-write-wins `set`, ordered
  `values()` iteration) is modelled by `CompMap`, an association list where
  `mapSet` overwrites in place or appends.
* The interaction array is a `List Interaction`, append-only.
* The file-system collaborators (`fs`, `path.relative`, directory walking)
  are outside the analysed core; the pipeline takes the (path, text) pairs
  as input, and the client analyser takes the collaborator-computed
  relative path as an explicit argument.
* Inside the script's `addExternalComponents` the statement
  `interactions.push(...)` references `interactions`, which is a local
  variable of `main` and not in scope there (the function receives only the
  component map): reaching that branch throws a ReferenceError and the run
  aborts before anything is rendered. This error path is modelled by an
  `Option` result on `addExternalComponents`, `buildModel` and
  `runPipeline`: `none` is the aborted run, which produces no output text.

The Spanish labels of the source (`"inyecta"`, `"usa"`, `"consulta"`,
`"navega a"`, `"conecta a"`) are kept verbatim; the specification refers to
them by their English translations (injects, uses, queries, navigates to,
connects to).
-/

/-! ## Character classes and low-level scanning utilities -/

/-- JavaScript `\w`: ASCII letters, digits and underscore. -/
def isWordChar (c : Char) : Bool :=
  decide (('a' ≤ c ∧ c ≤ 'z') ∨ ('A' ≤ c ∧ c ≤ 'Z') ∨ ('0' ≤ c ∧ c ≤ '9') ∨ c = '_')

/-- JavaScript `\s` / `trim` whitespace, restricted to the characters that
can occur here: space, tab, line feed, carriage return, vertical tab, form
feed, no-break space. -/
def isSpaceChar (c : Char) : Bool :=
  decide (c = ' ' ∨ c = '\t' ∨ c = '\n' ∨ c = '\r' ∨ c = '\x0b' ∨
    c = '\x0c' ∨ c = Char.ofNat 160)

/-- The apostrophe character (U+0027), used by the `@Controller('...')`
pattern. -/
def apos : Char := '\x27'

/-- The backtick character (U+0060), used by the template-literal `fetch`
pattern. -/
def backtick : Char := '\x60'

/-- `prefixOf p l` : does `l` start with `p`? -/
def prefixOf : List Char → List Char → Bool
  | [], _ => true
  | _ :: _, [] => false
  | p :: ps, c :: cs => if p = c then prefixOf ps cs else false

/-- Drop the literal `p` from the front of `l`, or fail. -/
def dropLit : List Char → List Char → Option (List Char)
  | [], l => some l
  | _ :: _, [] => none
  | p :: ps, c :: cs => if p = c then dropLit ps cs else none

/-- Leftmost-match search: try the position matcher `f` at every suffix of
the text, left to right (the semantics of an unanchored JavaScript
`String.match`). -/
def search {α : Type} (f : List Char → Option α) : List Char → Option α
  | [] => f []
  | c :: t =>
    match f (c :: t) with
    | some r => some r
    | none => search f t

/-- Substring test on character lists (JavaScript `String.includes`). -/
def listContains (pat s : List Char) : Bool :=
  (search (fun t => if prefixOf pat t then some () else none) s).isSome

/-- Substring test on strings (JavaScript `content.includes(pat)`). -/
def containsStr (s pat : String) : Bool :=
  listContains pat.data s.data

/-- JavaScript `String.split(',')` on a character list: every comma is a
separator, empty fields are kept. -/
def splitComma : List Char → List (List Char)
  | [] => [[]]
  | c :: t =>
    if c = ',' then [] :: splitComma t
    else
      match splitComma t with
      | [] => [[c]]
      | f :: r => (c :: f) :: r

/-- JavaScript `String.trim()` on a character list. -/
def trimChars (l : List Char) : List Char :=
  ((l.dropWhile isSpaceChar).reverse.dropWhile isSpaceChar).reverse

/-- Concatenation of a list of strings (in order). -/
def sconcat : List String → String
  | [] => ""
  | s :: t => s ++ sconcat t

/-! ## Position matchers for the script's regular expressions -/

/-- Try `/@Controller\('([^']*)'\)/` at the start of `t`; on success return
the captured route string. -/
def controllerAt (t : List Char) : Option String :=
  match dropLit ("@Controller(".data ++ [apos]) t with
  | none => none
  | some rest =>
    let cap := rest.takeWhile (fun c => decide (c ≠ apos))
    match rest.dropWhile (fun c => decide (c ≠ apos)) with
    | a :: b :: _ => if a = apos ∧ b = ')' then some (String.mk cap) else none
    | _ => none

/-- Try `/export class (\w+)/` at the start of `t`; on success return the
captured class name. -/
def exportClassAt (t : List Char) : Option String :=
  match dropLit "export class ".data t with
  | none => none
  | some rest =>
    let cap := rest.takeWhile isWordChar
    if cap.isEmpty then none else some (String.mk cap)

/-- Try `/constructor\(([^)]*)\)/` at the start of `t`; on success return
the captured parameter-list text. -/
def constructorAt (t : List Char) : Option String :=
  match dropLit "constructor(".data t with
  | none => none
  | some rest =>
    let cap := rest.takeWhile (fun c => decide (c ≠ ')'))
    match rest.dropWhile (fun c => decide (c ≠ ')')) with
    | _ :: _ => some (String.mk cap)
    | [] => none

/-- Tail of the parameter pattern, `\w+\s*:\s*(\w+)`, at the start of `t`.
All the starred pieces here are deterministic (no productive backtracking):
shrinking a greedy `\w+` or `\s*` always leaves a character the next piece
rejects. -/
def matchDepTail (t : List Char) : Option String :=
  if (t.takeWhile isWordChar).isEmpty then none
  else
    match (t.dropWhile isWordChar).dropWhile isSpaceChar with
    | c :: t2 =>
      if c = ':' then
        let cap := (t2.dropWhile isSpaceChar).takeWhile isWordChar
        if cap.isEmpty then none else some (String.mk cap)
      else none
    | [] => none

/-- `\s*(?:readonly)?\s*\w+\s*:\s*(\w+)` at the start of `t`: after the
greedy spaces, the engine first tries to consume a literal `readonly` and,
if the rest then fails, backtracks to the empty alternative. -/
def matchAfterQual (t : List Char) : Option String :=
  let t1 := t.dropWhile isSpaceChar
  match dropLit "readonly".data t1 with
  | some t2 =>
    match matchDepTail (t2.dropWhile isSpaceChar) with
    | some r => some r
    | none => matchDepTail t1
  | none => matchDepTail t1

/-- The whole parameter pattern
`(?:private|public|protected)?\s*(?:readonly)?\s*\w+\s*:\s*(\w+)` at the
start of `t`. The three qualifier literals are mutually exclusive as
prefixes, and on failure of the continuation the engine backtracks to the
empty alternative. -/
def matchDepAt (t : List Char) : Option String :=
  let withQual : Option String :=
    match dropLit "private".data t with
    | some t1 => matchAfterQual t1
    | none =>
      match dropLit "public".data t with
      | some t1 => matchAfterQual t1
      | none =>
        match dropLit "protected".data t with
        | some t1 => matchAfterQual t1
        | none => none
  match withQual with
  | some r => some r
  | none => matchAfterQual t

/-! ## Whole-string matchers (`content.match(...)` in the script) -/

/-- `content.match(/@Controller\('([^']*)'\)/)`, capture group 1. -/
def controllerCapture (s : String) : Option String :=
  search controllerAt s.data

/-- `content.match(/@Injectable\(\)/) !== null`. -/
def hasInjectable (s : String) : Bool :=
  containsStr s "@Injectable()"

/-- `content.match(/@WebSocketGateway\(\)/) !== null`. -/
def hasGateway (s : String) : Bool :=
  containsStr s "@WebSocketGateway()"

/-- `content.match(/export class (\w+)/)`, capture group 1. -/
def exportClassCapture (s : String) : Option String :=
  search exportClassAt s.data

/-- `content.match(/constructor\(([^)]*)\)/)`, capture group 1. -/
def constructorCapture (s : String) : Option String :=
  search constructorAt s.data

/-- `param.match(/(?:private|public|protected)?\s*(?:readonly)?\s*\w+\s*:\s*(\w+)/)`,
capture group 1, on one (already trimmed) parameter. -/
def depCapture (p : List Char) : Option String :=
  search matchDepAt p

/-! ## Data model (`Component`, `Interaction`, the `Map`) -/

/-- `Component.type` in the script: a closed union of string literals. -/
inductive CompType where
  | ClientPage
  | Controller
  | Service
  | Gateway
  | Database
  | User
deriving DecidableEq

/-- `Component.subgraph` in the script. -/
inductive Subgraph where
  | Client
  | Server
  | Database
  | User
deriving DecidableEq

/-- The `Component` interface of the script. -/
structure Component where
  id : String
  type : CompType
  label : String
  filePath : String
  subgraph : Subgraph
deriving DecidableEq

/-- The `Interaction` interface of the script; the optional `isAsync`
field defaults to false (absent / undefined is falsy). -/
structure Interaction where
  «from» : String
  «to» : String
  label : String
  isAsync : Bool := false
deriving DecidableEq

/-- The `Map<string, Component>` of the script: an insertion-ordered
association list. -/
abbrev CompMap := List (String × Component)

/-- `Map.get`: the value stored under `k`, if any. -/
def mapGet : CompMap → String → Option Component
  | [], _ => none
  | (k', v) :: t, k => if k' = k then some v else mapGet t k

/-- `Map.set`: overwrite in place if the key exists (keeping its
position), otherwise append at the end. -/
def mapSet (m : CompMap) (k : String) (v : Component) : CompMap :=
  if m.any (fun p => decide (p.1 = k)) then
    m.map (fun p => if p.1 = k then (k, v) else p)
  else m ++ [(k, v)]

/-- `Map.has`. -/
def hasKey (m : CompMap) (k : String) : Bool :=
  (mapGet m k).isSome

/-- `Map.values()` in insertion order. -/
def values (m : CompMap) : List Component :=
  m.map (fun p => p.2)

/-! ## Server-file analysis (`analyzeServerFile`) -/

/-- The interactions contributed by the constructor-parameter scan of
`analyzeServerFile`: split the captured parameter list on commas, trim each
field, and for each field whose dependency pattern matches, one
`"inyecta"` ("injects") interaction from the class to the captured type
name. -/
def injectedDeps (id : String) (content : String) : List Interaction :=
  match constructorCapture content with
  | none => []
  | some ps =>
    ((splitComma ps.data).map trimChars).filterMap
      (fun p => (depCapture p).map
        (fun d => { «from» := id, «to» := d, label := "inyecta", isAsync := false }))

/-- The interaction contributed by the `content.includes('PrismaService')`
check of `analyzeServerFile`: one `"usa"` ("uses") interaction when the
substring occurs. -/
def prismaTail (id : String) (content : String) : List Interaction :=
  if containsStr content "PrismaService" then
    [{ «from» := id, «to» := "PrismaService", label := "usa", isAsync := false }]
  else []

/-- `analyzeServerFile(filePath, content, components, interactions)`:
returns the updated component map and interaction list. -/
def analyzeServerFile (filePath content : String) (comps : CompMap)
    (inters : List Interaction) : CompMap × List Interaction :=
  match exportClassCapture content with
  | none => (comps, inters)
  | some id =>
    let comps1 :=
      match controllerCapture content with
      | some v =>
        mapSet comps id
          { id := id, type := CompType.Controller,
            label := id ++ "<br><small>/api" ++ v ++ "</small>",
            filePath := filePath, subgraph := Subgraph.Server }
      | none =>
        if hasInjectable content then
          mapSet comps id
            { id := id, type := CompType.Service, label := id,
              filePath := filePath, subgraph := Subgraph.Server }
        else if hasGateway content then
          mapSet comps id
            { id := id, type := CompType.Gateway,
              label := id ++ "<br><small>WebSocket</small>",
              filePath := filePath, subgraph := Subgraph.Server }
        else comps
    (comps1, (inters ++ injectedDeps id content) ++ prismaTail id content)

/-! ## Client-file analysis (`analyzeClientFile`) -/

/-- `path.relative(clientDir, filePath).replace(/\\/g, '/')
.replace(/\/page\.tsx$/, '')`, taking the collaborator-computed raw
relative path as input: convert every backslash to a forward slash, then
strip one trailing `/page.tsx` if present. -/
def normalizeRel (rawRel : String) : String :=
  let slashed := rawRel.data.map (fun c => if c = '\\' then '/' else c)
  if prefixOf "/page.tsx".data.reverse slashed.reverse then
    String.mk (slashed.take (slashed.length - 9))
  else String.mk slashed

/-- The page identifier: `` `Page(${relativePath || '/'})` ``. -/
def pageId (rawRel : String) : String :=
  "Page(" ++ (if normalizeRel rawRel = "" then "/" else normalizeRel rawRel) ++ ")"

/-- The page label: `` `/${relativePath || ''}` ``. -/
def pageLabel (rawRel : String) : String :=
  "/" ++ normalizeRel rawRel

/-- `findControllerByRoute(route, components)`: first component (in map
insertion order) that is a Controller whose label contains
`/api/<route>`. -/
def findControllerByRoute (route : String) (comps : CompMap) : Option Component :=
  (values comps).find?
    (fun c => decide (c.type = CompType.Controller) && containsStr c.label ("/api/" ++ route))

/-- `findComponentByType(type, components)`: first component of the given
kind in map insertion order. -/
def findComponentByType (ty : CompType) (comps : CompMap) : Option Component :=
  (values comps).find? (fun c => decide (c.type = ty))

/-- Try the `fetch` template-literal pattern
``/fetch\(`\$\{apiUrl\}\/api\/([^`]*)`/`` at the start of `t`; on success
return the capture and the remainder of the text after the whole match. -/
def tryFetchAt (t : List Char) : Option (List Char × List Char) :=
  match dropLit "fetch(\x60$\x7bapiUrl\x7d/api/".data t with
  | none => none
  | some rest =>
    let cap := rest.takeWhile (fun c => decide (c ≠ backtick))
    match rest.dropWhile (fun c => decide (c ≠ backtick)) with
    | _ :: rest2 => some (cap, rest2)
    | [] => none

/-- Fuel-indexed global scan (`String.matchAll` with the `g` flag):
non-overlapping matches, resuming after the end of each match. The fuel is
an upper bound on the number of scanning steps; every step consumes at
least one character, so `fetchCaptures` supplies enough. -/
def fetchScan : Nat → List Char → List (List Char)
  | 0, _ => []
  | _ + 1, [] => []
  | fuel + 1, c :: t =>
    match tryFetchAt (c :: t) with
    | some (cap, rest) => cap :: fetchScan fuel rest
    | none => fetchScan fuel t

/-- All captures of the global `fetch` pattern over the text. -/
def fetchCaptures (s : List Char) : List (List Char) :=
  fetchScan s.length s

/-- `analyzeClientFile(filePath, content, components, interactions)`,
with the collaborator-computed raw relative path passed explicitly. -/
def analyzeClientFile (rawRel filePath content : String) (comps : CompMap)
    (inters : List Interaction) : CompMap × List Interaction :=
  let id := pageId rawRel
  let comps1 :=
    mapSet comps id
      { id := id, type := CompType.ClientPage, label := pageLabel rawRel,
        filePath := filePath, subgraph := Subgraph.Client }
  let inters1 := inters ++ (fetchCaptures content.data).filterMap
    (fun cap =>
      let endpoint := String.mk (cap.takeWhile (fun c => decide (c ≠ '/')))
      match findControllerByRoute endpoint comps1 with
      | some comp =>
        some { «from» := id, «to» := comp.id,
               label := "GET /api/" ++ endpoint, isAsync := false }
      | none => none)
  let inters2 :=
    if containsStr content "useSocket()" then
      match findComponentByType CompType.Gateway comps1 with
      | some g => inters1 ++ [{ «from» := id, «to» := g.id, label := "conecta a", isAsync := true }]
      | none => inters1
    else inters1
  (comps1, inters2)

/-! ## External-actor synthesis (`addExternalComponents`) -/

/-- The synthesized User component. -/
def userComponent : Component :=
  { id := "User", type := CompType.User, label := "👤 Usuario",
    filePath := "", subgraph := Subgraph.User }

/-- The synthesized Database component. -/
def databaseComponent : Component :=
  { id := "Database", type := CompType.Database, label := "🗄️ Base de Datos",
    filePath := "", subgraph := Subgraph.Database }

/-- `addExternalComponents(components)`: sets User and Database, then —
when PrismaService is a key of the map — executes
`interactions.push({from: 'PrismaService', to: 'Database', label: 'consulta'})`.
`interactions` is a local variable of `main` and is not in scope inside
this function (it receives only the component map), so reaching that
branch throws a ReferenceError and the run aborts; `none` models the
abort. On the other branch the function completes, with the interaction
log untouched. -/
def addExternalComponents (comps : CompMap) (inters : List Interaction) :
    Option (CompMap × List Interaction) :=
  let comps1 := mapSet (mapSet comps "User" userComponent) "Database" databaseComponent
  if hasKey comps1 "PrismaService" then none
  else some (comps1, inters)

/-! ## Rendering (`generateMermaidCode`) -/

/-- One component declaration line inside a subgraph block:
`    id["label"]`. -/
def compDeclLine (c : Component) : String :=
  "    " ++ c.id ++ "[\"" ++ c.label ++ "\"]"

/-- The declaration lines pushed into one cluster bucket, in map insertion
order. -/
def bucketLines (comps : CompMap) (sg : Subgraph) : List String :=
  ((values comps).filter (fun c => decide (c.subgraph = sg))).map compDeclLine

/-- One subgraph block; empty buckets render nothing. -/
def subgraphBlock (name : String) (ls : List String) : String :=
  if ls.length > 0 then
    "  subgraph " ++ name ++ "\n" ++ String.intercalate "\n" ls ++ "\n" ++ "  end\n"
  else ""

/-- All four subgraph blocks, in the fixed declaration order of the
`subgraphs` record: User, Client, Server, Database. -/
def subgraphSection (comps : CompMap) : String :=
  subgraphBlock "User" (bucketLines comps Subgraph.User) ++
  subgraphBlock "Client" (bucketLines comps Subgraph.Client) ++
  subgraphBlock "Server" (bucketLines comps Subgraph.Server) ++
  subgraphBlock "Database" (bucketLines comps Subgraph.Database)

/-- One rendered edge line:
`` `  ${inter.from} ${arrow}|${inter.label}| ${inter.to}\n` ``. -/
def edgeLine (i : Interaction) : String :=
  "  " ++ i.«from» ++ " " ++ (if i.isAsync then "-.->" else "-->") ++
  "|" ++ i.label ++ "| " ++ i.«to» ++ "\n"

/-- Whether the renderer's endpoint check passes: both `components.get`
lookups return a component. -/
def bothEndpoints (comps : CompMap) (i : Interaction) : Bool :=
  (mapGet comps i.«from»).isSome && (mapGet comps i.«to»).isSome

/-- The interaction loop of the renderer: append an edge line exactly when
both endpoints exist, otherwise append nothing. -/
def interactionSection (comps : CompMap) (inters : List Interaction) : String :=
  inters.foldl (fun acc i => if bothEndpoints comps i then acc ++ edgeLine i else acc) ""

/-- One implicit navigation edge line:
`` `  User -->|navega a| ${comp.id}\n` ``. -/
def navLine (c : Component) : String :=
  "  User -->|navega a| " ++ c.id ++ "\n"

/-- The implicit-navigation loop of the renderer: one navigation line per
ClientPage component, in map insertion order. -/
def navSection (comps : CompMap) : String :=
  (values comps).foldl
    (fun acc c => if decide (c.type = CompType.ClientPage) then acc ++ navLine c else acc) ""

/-- The comma-joined identifier list of one cluster's style-class
assignment. -/
def clusterIds (comps : CompMap) (sg : Subgraph) : String :=
  String.intercalate ","
    (((values comps).filter (fun c => decide (c.subgraph = sg))).map (fun c => c.id))

/-- The trailing style template literal of the renderer. -/
def styleSection (comps : CompMap) : String :=
  "\n  %% Estilos\n  classDef client fill:#233,stroke:#39c,stroke-width:2px,color:#fff\n  classDef server fill:#333,stroke:#f90,stroke-width:2px,color:#fff\n  classDef db fill:#444,stroke:#ccc,stroke-width:2px,color:#fff\n  classDef user fill:#111,stroke:#999,stroke-width:2px,color:#fff\n\n  class " ++
  clusterIds comps Subgraph.Client ++ " client\n  class " ++
  clusterIds comps Subgraph.Server ++ " server\n  class " ++
  clusterIds comps Subgraph.Database ++ " db\n  class " ++
  clusterIds comps Subgraph.User ++ " user\n  "

/-- `generateMermaidCode(components, interactions)`. -/
def generateMermaidCode (comps : CompMap) (inters : List Interaction) : String :=
  "graph TD\n" ++ subgraphSection comps ++ "\n  %% Interacciones\n" ++
  interactionSection comps inters ++ navSection comps ++ styleSection comps

/-! ## Pipeline (`main`, minus the file-system collaborators) -/

/-- The model built by `main`: fold the server analyser over the server
(path, text) pairs, then the client analyser over the client
(rawRelativePath, path, text) triples, then synthesize the external
actors — which aborts the run (`none`) when the model contains
PrismaService, because of the out-of-scope `interactions` reference. -/
def buildModel (serverFiles : List (String × String))
    (clientFiles : List (String × String × String)) :
    Option (CompMap × List Interaction) :=
  let m1 := serverFiles.foldl
    (fun m f => analyzeServerFile f.1 f.2 m.1 m.2) (([], []) : CompMap × List Interaction)
  let m2 := clientFiles.foldl
    (fun m f => analyzeClientFile f.1 f.2.1 f.2.2 m.1 m.2) m1
  addExternalComponents m2.1 m2.2

/-- The full text written by `main`: the Mermaid code wrapped in the
Markdown document. An aborted run (`none`) writes nothing. -/
def runPipeline (serverFiles : List (String × String))
    (clientFiles : List (String × String × String)) : Option String :=
  match buildModel serverFiles clientFiles with
  | none => none
  | some m =>
    some ("# Diagrama de Arquitectura del Proyecto\n\n\x60\x60\x60mermaid\n" ++
      generateMermaidCode m.1 m.2 ++ "\n\x60\x60\x60")

/-- A server file whose first (and only) exported class is
PrismaService. -/
def contentC10 : String := "@Injectable()\nexport class PrismaService"

/-- A component map containing a PrismaService component. -/
def compsC10 : CompMap :=
  [("PrismaService",
    { id := "PrismaService", type := CompType.Service, label := "PrismaService",
      filePath := "p.ts", subgraph := Subgraph.Server })]

/-! ## Basic lemmas about strings and the scanning utilities -/

theorem str_eq_of_data (a b : String) (h : a.data = b.data) : a = b := by
  cases a; cases b; cases h; rfl

theorem str_data_append (a b : String) : (a ++ b).data = a.data ++ b.data := by
  cases a; cases b; rfl

theorem str_append_assoc (a b c : String) : a ++ b ++ c = a ++ (b ++ c) := by
  apply str_eq_of_data
  rw [str_data_append, str_data_append, str_data_append, str_data_append,
    List.append_assoc]

theorem str_append_empty (a : String) : a ++ "" = a := by
  apply str_eq_of_data
  rw [str_data_append]
  exact List.append_nil _

theorem str_empty_append (a : String) : "" ++ a = a := by
  apply str_eq_of_data
  rw [str_data_append]
  rfl

/-- A guarded string-appending fold is the concatenation of the rendered
filtered elements. -/
theorem foldl_guard {α : Type} (g : α → Bool) (f : α → String) (l : List α)
    (acc : String) :
    l.foldl (fun a x => if g x then a ++ f x else a) acc =
      acc ++ sconcat ((l.filter g).map f) := by
  induction l generalizing acc with
  | nil => simp [sconcat, str_append_empty]
  | cons x t ih =>
    by_cases hg : g x = true
    · simp only [List.foldl_cons, List.filter_cons, hg, if_pos, List.map_cons, sconcat]
      rw [ih, str_append_assoc]
    · simp only [List.foldl_cons, List.filter_cons, hg, if_neg, Bool.false_eq_true,
        not_false_iff]
      rw [ih]

/-! ## Lemmas about the insertion-ordered map -/

theorem mapGet_cons (ak : String) (av : Component) (t : CompMap) (k : String) :
    mapGet ((ak, av) :: t) k = if ak = k then some av else mapGet t k := rfl

theorem mapGet_overwrite_of_any (m : CompMap) (k : String) (v : Component)
    (h : m.any (fun p => decide (p.1 = k)) = true) :
    mapGet (m.map (fun p => if p.1 = k then (k, v) else p)) k = some v := by
  induction m with
  | nil => simp at h
  | cons a t ih =>
    obtain ⟨ak, av⟩ := a
    simp only [List.map_cons]
    show mapGet ((if ak = k then (k, v) else (ak, av)) :: _) k = some v
    by_cases ha : ak = k
    · rw [if_pos ha, mapGet_cons, if_pos rfl]
    · rw [if_neg ha, mapGet_cons, if_neg ha]
      simp only [List.any_cons, Bool.or_eq_true, decide_eq_true_eq] at h
      rcases h with h' | h'
      · exact absurd h' ha
      · exact ih h'

theorem mapGet_append_single (m : CompMap) (k : String) (v : Component)
    (h : m.any (fun p => decide (p.1 = k)) = false) :
    mapGet (m ++ [(k, v)]) k = some v := by
  induction m with
  | nil => simp [mapGet]
  | cons a t ih =>
    obtain ⟨ak, av⟩ := a
    simp only [List.any_cons, Bool.or_eq_false_iff, decide_eq_false_iff_not] at h
    rw [List.cons_append, mapGet_cons, if_neg h.1]
    exact ih h.2

/-- `Map.set` stores the value under its key. -/
theorem mapGet_mapSet_self (m : CompMap) (k : String) (v : Component) :
    mapGet (mapSet m k v) k = some v := by
  unfold mapSet
  by_cases h : m.any (fun p => decide (p.1 = k)) = true
  · rw [if_pos h]
    exact mapGet_overwrite_of_any m k v h
  · rw [if_neg h]
    exact mapGet_append_single m k v (Bool.not_eq_true _ |>.mp h)

theorem mapGet_overwrite_ne (m : CompMap) (k k' : String) (v : Component)
    (h : k' ≠ k) :
    mapGet (m.map (fun p => if p.1 = k then (k, v) else p)) k' = mapGet m k' := by
  induction m with
  | nil => rfl
  | cons a t ih =>
    obtain ⟨ak, av⟩ := a
    simp only [List.map_cons]
    show mapGet ((if ak = k then (k, v) else (ak, av)) :: _) k' = _
    rw [mapGet_cons]
    by_cases ha : ak = k
    · rw [if_pos ha, mapGet_cons, if_neg (Ne.symm h), if_neg (ha ▸ Ne.symm h)]
      exact ih
    · rw [if_neg ha, mapGet_cons]
      by_cases hk : ak = k'
      · rw [if_pos hk, if_pos hk]
      · rw [if_neg hk, if_neg hk]
        exact ih

theorem mapGet_append_single_ne (m : CompMap) (k k' : String) (v : Component)
    (h : k' ≠ k) :
    mapGet (m ++ [(k, v)]) k' = mapGet m k' := by
  induction m with
  | nil => simp only [List.nil_append, mapGet, if_neg (Ne.symm h)]
  | cons a t ih =>
    obtain ⟨ak, av⟩ := a
    simp only [List.cons_append, mapGet]
    by_cases hk : ak = k'
    · rw [if_pos hk, if_pos hk]
    · rw [if_neg hk, if_neg hk]
      exact ih

/-- `Map.set` leaves every other key unchanged. -/
theorem mapGet_mapSet_ne (m : CompMap) (k k' : String) (v : Component)
    (h : k' ≠ k) :
    mapGet (mapSet m k v) k' = mapGet m k' := by
  unfold mapSet
  by_cases hc : m.any (fun p => decide (p.1 = k)) = true
  · rw [if_pos hc]
    exact mapGet_overwrite_ne m k k' v h
  · rw [if_neg hc]
    exact mapGet_append_single_ne m k k' v h

theorem hasKey_mapSet_ne (m : CompMap) (k k' : String) (v : Component)
    (h : k' ≠ k) :
    hasKey (mapSet m k v) k' = hasKey m k' := by
  unfold hasKey
  rw [mapGet_mapSet_ne m k k' v h]

/-! ## Lemmas about the leftmost-match search and substring containment -/

theorem search_isSome_of_suffix {α : Type} (f : List Char → Option α)
    (s t : List Char) (hsuf : t <:+ s) (hf : (f t).isSome = true) :
    (search f s).isSome = true := by
  induction s with
  | nil =>
    have ht : t = [] := List.suffix_nil.mp hsuf
    subst ht
    simpa [search] using hf
  | cons c s' ih =>
    rcases List.suffix_cons_iff.mp hsuf with h1 | h2
    · subst h1
      unfold search
      cases hfc : f (c :: s') with
      | some r => simp
      | none => rw [hfc] at hf; simp at hf
    · unfold search
      cases hfc : f (c :: s') with
      | some r => simp
      | none => simpa using ih h2

theorem search_eq_some {α : Type} (f : List Char → Option α) (s : List Char)
    (r : α) (h : search f s = some r) : ∃ t, t <:+ s ∧ f t = some r := by
  induction s with
  | nil => exact ⟨[], List.suffix_refl [], by simpa [search] using h⟩
  | cons c s' ih =>
    unfold search at h
    cases hfc : f (c :: s') with
    | some r' =>
      rw [hfc] at h
      exact ⟨c :: s', List.suffix_refl _, hfc.trans h⟩
    | none =>
      rw [hfc] at h
      obtain ⟨t, hs, hft⟩ := ih h
      exact ⟨t, hs.trans (List.suffix_cons c s'), hft⟩

theorem prefixOf_append_self (p v : List Char) : prefixOf p (p ++ v) = true := by
  induction p with
  | nil => rfl
  | cons c t ih => simp [prefixOf, ih]

theorem prefixOf_takeWhile (q : Char → Bool) (l : List Char) :
    prefixOf (l.takeWhile q) l = true := by
  induction l with
  | nil => rfl
  | cons c t ih =>
    by_cases h : q c = true
    · simp only [List.takeWhile_cons, h, if_pos, prefixOf, if_pos rfl]
      exact ih
    · simp only [List.takeWhile_cons, h, Bool.false_eq_true, not_false_iff, if_neg]
      rfl

theorem dropLit_eq (p : List Char) :
    ∀ s r : List Char, dropLit p s = some r → s = p ++ r := by
  induction p with
  | nil =>
    intro s r h
    simp only [dropLit, Option.some.injEq] at h
    rw [← h, List.nil_append]
  | cons c t ih =>
    intro s r h
    cases s with
    | nil => simp [dropLit] at h
    | cons a s' =>
      simp only [dropLit] at h
      by_cases hc : c = a
      · rw [if_pos hc] at h
        rw [List.cons_append, ← hc, ih s' r h]
      · rw [if_neg hc] at h
        cases h

theorem listContains_of_suffix (pat s t : List Char) (hsuf : t <:+ s)
    (hp : prefixOf pat t = true) : listContains pat s = true := by
  unfold listContains
  apply search_isSome_of_suffix _ _ _ hsuf
  simp [hp]

/-- The class name captured by `export class (\w+)` occurs verbatim in the
file text. -/
theorem exportClass_contains (s id : String)
    (h : exportClassCapture s = some id) : listContains id.data s.data = true := by
  obtain ⟨t, hsuf, hat⟩ := search_eq_some _ _ _ h
  unfold exportClassAt at hat
  cases hdl : dropLit "export class ".data t with
  | none => rw [hdl] at hat; cases hat
  | some rest =>
    rw [hdl] at hat
    dsimp only at hat
    by_cases he : (rest.takeWhile isWordChar).isEmpty = true
    · rw [if_pos he] at hat; cases hat
    · rw [if_neg he] at hat
      have hid : id.data = rest.takeWhile isWordChar := by
        cases hat; rfl
      have hrest : rest <:+ t := ⟨"export class ".data, (dropLit_eq _ _ _ hdl).symm⟩
      apply listContains_of_suffix _ _ rest (hrest.trans hsuf)
      rw [hid]
      exact prefixOf_takeWhile _ _

theorem sconcat_mem_decomp (x : String) (parts : List String) (h : x ∈ parts) :
    ∃ u v, (sconcat parts).data = u ++ (x.data ++ v) := by
  induction parts with
  | nil => cases h
  | cons p t ih =>
    rcases List.mem_cons.mp h with h1 | h2
    · subst h1
      exact ⟨[], (sconcat t).data, by rw [sconcat, str_data_append, List.nil_append]⟩
    · obtain ⟨u, v, hd⟩ := ih h2
      exact ⟨p.data ++ u, v, by rw [sconcat, str_data_append, hd, List.append_assoc]⟩

/-- Any member of a list of strings occurs as a substring of their
concatenation. -/
theorem containsStr_sconcat (x : String) (parts : List String) (h : x ∈ parts) :
    containsStr (sconcat parts) x = true := by
  obtain ⟨u, v, hd⟩ := sconcat_mem_decomp x parts h
  unfold containsStr
  rw [hd]
  exact listContains_of_suffix _ _ (x.data ++ v) ⟨u, rfl⟩ (prefixOf_append_self _ _)

/-! ## Shared decomposition helpers -/

/-- The interaction list produced by `analyzeServerFile` when an exported
class is found: the input list, then the constructor-injection
interactions, then the optional PrismaService usage interaction. -/
theorem analyzeServerFile_snd (fp content : String) (comps : CompMap)
    (inters : List Interaction) (id : String)
    (h : exportClassCapture content = some id) :
    (analyzeServerFile fp content comps inters).2 =
      (inters ++ injectedDeps id content) ++ prismaTail id content := by
  unfold analyzeServerFile
  rw [h]

/-- The renderer's interaction loop, as the concatenation of the edge
lines of the endpoint-complete interactions. -/
theorem interactionSection_eq (comps : CompMap) (inters : List Interaction) :
    interactionSection comps inters =
      sconcat ((inters.filter (bothEndpoints comps)).map edgeLine) := by
  unfold interactionSection
  rw [foldl_guard (bothEndpoints comps) edgeLine inters "", str_empty_append]

/-! ## C1 -/

/-- C1: for every model, the renderer emits an edge line for an
interaction if and only if both its source identifier and its target
identifier are keys of the final component map — the interaction loop's
output is exactly the concatenation of one edge line per
endpoint-complete interaction, and an interaction with a missing endpoint
contributes no text; the loop is a total function, so no error is
raised. -/
theorem interaction_rendered_iff_endpoints_exist (comps : CompMap)
    (inters : List Interaction) :
    interactionSection comps inters =
      sconcat ((inters.filter (fun i =>
        (mapGet comps i.«from»).isSome && (mapGet comps i.«to»).isSome)).map edgeLine) :=
  interactionSection_eq comps inters

/-! ## C2 -/

/-- C2: the claim states the intended behaviour of the synthesis step,
but the code contains a scope bug: `addExternalComponents` receives only
the component map, yet its PrismaService branch pushes onto
`interactions`, a local variable of `main` that is not in scope there —
a ReferenceError, so the `"consulta"` ("queries") interaction is never
appended. What actually holds: every run of the synthesis step that
completes has stored the User and Database components and left the
interaction log unchanged, and completion is only possible when the
PrismaService key is absent; on a map containing PrismaService the step
aborts. -/
theorem addExternalComponents_referenceError (comps : CompMap)
    (inters : List Interaction) (r : CompMap × List Interaction)
    (h : addExternalComponents comps inters = some r) :
    mapGet r.1 "User" = some userComponent ∧
    mapGet r.1 "Database" = some databaseComponent ∧
    r.2 = inters ∧
    hasKey comps "PrismaService" = false ∧
    addExternalComponents compsC10 inters = none := by
  unfold addExternalComponents at h
  by_cases hp : hasKey (mapSet (mapSet comps "User" userComponent) "Database"
      databaseComponent) "PrismaService" = true
  · rw [if_pos hp] at h
    cases h
  · rw [if_neg hp] at h
    have hr := (Option.some.inj h).symm
    subst hr
    refine ⟨?_, ?_, rfl, ?_, ?_⟩
    · show mapGet (mapSet (mapSet comps "User" userComponent) "Database"
        databaseComponent) "User" = some userComponent
      rw [mapGet_mapSet_ne _ _ _ _ (by decide), mapGet_mapSet_self]
    · show mapGet (mapSet (mapSet comps "User" userComponent) "Database"
        databaseComponent) "Database" = some databaseComponent
      rw [mapGet_mapSet_self]
    · rw [hasKey_mapSet_ne _ _ _ _ (by decide),
        hasKey_mapSet_ne _ _ _ _ (by decide)] at hp
      exact Bool.not_eq_true _ |>.mp hp
    · unfold addExternalComponents
      rw [if_pos (show hasKey (mapSet (mapSet compsC10 "User" userComponent)
        "Database" databaseComponent) "PrismaService" = true by decide)]

theorem addExternalComponents_referenceError_witness :
    addExternalComponents [] [] =
      some ([("User", userComponent), ("Database", databaseComponent)], []) ∧
    (mapGet [("User", userComponent), ("Database", databaseComponent)] "User" =
        some userComponent ∧
     mapGet [("User", userComponent), ("Database", databaseComponent)] "Database" =
        some databaseComponent ∧
     (([("User", userComponent), ("Database", databaseComponent)],
        ([] : List Interaction))).2 = [] ∧
     hasKey [] "PrismaService" = false ∧
     addExternalComponents compsC10 [] = none) :=
  ⟨by decide,
   addExternalComponents_referenceError [] []
     ([("User", userComponent), ("Database", databaseComponent)], []) (by decide)⟩

/-! ## C3 -/

/-- C3: when a server file contains an exported class, the class is
classified by first match in the fixed order Controller (route
annotation, label embedding `/api<value>`), Service (injectable marker),
Gateway (websocket marker, "WebSocket" sub-label); at most one branch
updates the map even when several markers are present, and if no marker
matches, no component is added for the class. -/
theorem server_classification_priority (fp content : String) (comps : CompMap)
    (inters : List Interaction) (id : String)
    (h : exportClassCapture content = some id) :
    (analyzeServerFile fp content comps inters).1 =
      match controllerCapture content with
      | some v =>
        mapSet comps id
          { id := id, type := CompType.Controller,
            label := id ++ "<br><small>/api" ++ v ++ "</small>",
            filePath := fp, subgraph := Subgraph.Server }
      | none =>
        if hasInjectable content then
          mapSet comps id
            { id := id, type := CompType.Service, label := id,
              filePath := fp, subgraph := Subgraph.Server }
        else if hasGateway content then
          mapSet comps id
            { id := id, type := CompType.Gateway,
              label := id ++ "<br><small>WebSocket</small>",
              filePath := fp, subgraph := Subgraph.Server }
        else comps := by
  unfold analyzeServerFile
  rw [h]

/-- A server file carrying both a route annotation and an injectable
marker on its exported class. -/
def contentC3 : String := "@Controller(\x27/o\x27)\n@Injectable()\nexport class Foo"

theorem server_classification_priority_witness :
    exportClassCapture contentC3 = some "Foo" ∧
    (analyzeServerFile "a.ts" contentC3 [] []).1 =
      [("Foo", { id := "Foo", type := CompType.Controller,
                 label := "Foo<br><small>/api/o</small>",
                 filePath := "a.ts", subgraph := Subgraph.Server })] :=
  ⟨by decide,
   (server_classification_priority "a.ts" contentC3 [] [] "Foo" (by decide)).trans
     (by decide)⟩

/-! ## C4 -/

/-- C4: for every server file with an exported class, each comma-separated
parameter of the first constructor parameter list whose dependency
pattern matches (a type annotation after a colon) contributes exactly one
Interaction from the class identifier to the captured type name labeled
`"inyecta"` ("injects"), appended in order — regardless of whether the
class itself was classified as any recognized kind (the component map
update and the interaction appends are independent); a zero-parameter
constructor (`constructor()`, captured parameter text empty) contributes
zero injected-dependency interactions. -/
theorem constructor_injection_deps (fp content : String) (comps : CompMap)
    (inters : List Interaction) (id : String)
    (h : exportClassCapture content = some id) :
    ((analyzeServerFile fp content comps inters).2 =
      (inters ++ (match constructorCapture content with
        | none => []
        | some ps =>
          ((splitComma ps.data).map trimChars).filterMap
            (fun p => (depCapture p).map
              (fun d => { «from» := id, «to» := d, label := "inyecta",
                          isAsync := false })))) ++ prismaTail id content) ∧
    (constructorCapture content = some "" → injectedDeps id content = []) := by
  constructor
  · exact analyzeServerFile_snd fp content comps inters id h
  · intro hc
    unfold injectedDeps
    rw [hc]
    rfl

/-- A server file with no recognized class marker but a three-parameter
constructor, of which two parameters match the dependency pattern. -/
def contentC4 : String :=
  "export class Foo\nconstructor(private readonly svc: BarService, plain: Baz, x)"

theorem constructor_injection_deps_witness :
    exportClassCapture contentC4 = some "Foo" ∧
    (analyzeServerFile "a.ts" contentC4 [] []).2 =
      [{ «from» := "Foo", «to» := "BarService", label := "inyecta", isAsync := false },
       { «from» := "Foo", «to» := "Baz", label := "inyecta", isAsync := false }] :=
  ⟨by decide,
   ((constructor_injection_deps "a.ts" contentC4 [] [] "Foo" (by decide)).1).trans
     (by decide)⟩

/-! ## C5 -/

/-- C5: for every server file containing an exported class, an Interaction
from the class to PrismaService labeled `"usa"` ("uses") is appended
exactly when the raw file text contains the literal substring
`PrismaService` anywhere (the check is a plain substring search, so a
mention inside a comment or string also fires); when the substring is
absent, no such interaction is appended. -/
theorem prisma_usage_iff (fp content : String) (comps : CompMap)
    (inters : List Interaction) (id : String)
    (h : exportClassCapture content = some id) :
    (containsStr content "PrismaService" = true →
      (analyzeServerFile fp content comps inters).2 =
        (inters ++ injectedDeps id content) ++
          [{ «from» := id, «to» := "PrismaService", label := "usa", isAsync := false }]) ∧
    (containsStr content "PrismaService" = false →
      (analyzeServerFile fp content comps inters).2 =
        inters ++ injectedDeps id content) := by
  constructor
  · intro hc
    rw [analyzeServerFile_snd fp content comps inters id h]
    unfold prismaTail
    rw [if_pos hc]
  · intro hc
    rw [analyzeServerFile_snd fp content comps inters id h]
    unfold prismaTail
    rw [hc]
    show _ ++ [] = _
    rw [List.append_nil]

/-- A server file whose only mention of PrismaService is inside a line
comment. -/
def contentC5 : String := "export class Foo\n// usamos PrismaService aqui"

theorem prisma_usage_iff_witness :
    exportClassCapture contentC5 = some "Foo" ∧
    containsStr contentC5 "PrismaService" = true ∧
    (analyzeServerFile "a.ts" contentC5 [] []).2 =
      [{ «from» := "Foo", «to» := "PrismaService", label := "usa", isAsync := false }] :=
  ⟨by decide, by decide,
   ((prisma_usage_iff "a.ts" contentC5 [] [] "Foo" (by decide)).1 (by decide)).trans
     (by decide)⟩

/-! ## C6 -/

/-- C6: a server file whose text contains no exported class declaration
leaves the model completely unchanged: the analyser returns the component
map and the interaction list exactly as given. -/
theorem no_export_class_no_change (fp content : String) (comps : CompMap)
    (inters : List Interaction) (h : exportClassCapture content = none) :
    analyzeServerFile fp content comps inters = (comps, inters) := by
  unfold analyzeServerFile
  rw [h]

theorem no_export_class_no_change_witness :
    exportClassCapture "const x = 1" = none ∧
    analyzeServerFile "a.ts" "const x = 1" [] [] = ([], []) :=
  ⟨by decide, no_export_class_no_change "a.ts" "const x = 1" [] [] (by decide)⟩

/-! ## C7 -/

/-- C7: for every client file, the client analyser writes exactly one
component into the map — kind ClientPage, cluster Client, identifier
`Page(<relative-path>)` where the relative path has every backslash
converted to a forward slash and one trailing `/page.tsx` stripped, and
an empty relative path becomes the site root `Page(/)`; the rest of the
analyser only appends interactions and never touches the component
map. The extra conjuncts evaluate the identifier derivation on
representative paths. -/
theorem clientPage_component_unique (rawRel fp content : String)
    (comps : CompMap) (inters : List Interaction) :
    (analyzeClientFile rawRel fp content comps inters).1 =
      mapSet comps (pageId rawRel)
        { id := pageId rawRel, type := CompType.ClientPage,
          label := pageLabel rawRel, filePath := fp,
          subgraph := Subgraph.Client } ∧
    pageId "" = "Page(/)" ∧
    pageId "dashboard\\page.tsx" = "Page(dashboard)" ∧
    pageId "about/page.tsx" = "Page(about)" ∧
    pageLabel "" = "/" :=
  ⟨rfl, by decide, by decide, by decide, by decide⟩

/-! ## C8 -/

/-- C8: the renderer emits exactly one implicit `"navega a"` ("navigates
to") edge from User for every ClientPage component, in map order; the
navigation loop reads only the component map (not the interaction log),
so the edges are emitted independently of any existing User-to-page
interaction and duplicates can appear. -/
theorem nav_edge_per_client_page (comps : CompMap) (inters : List Interaction) :
    generateMermaidCode comps inters =
      "graph TD\n" ++ subgraphSection comps ++ "\n  %% Interacciones\n" ++
        interactionSection comps inters ++ navSection comps ++ styleSection comps ∧
    navSection comps =
      sconcat (((values comps).filter
        (fun c => decide (c.type = CompType.ClientPage))).map navLine) := by
  refine ⟨rfl, ?_⟩
  unfold navSection
  rw [foldl_guard _ navLine (values comps) "", str_empty_append]

/-! ## C9 -/

/-- The document produced by a run on empty server and client file lists:
the degenerate diagram containing only the synthesized User and Database
actors. -/
def emptyRunOutput : String :=
  "# Diagrama de Arquitectura del Proyecto\n\n\x60\x60\x60mermaid\ngraph TD\n  subgraph User\n    User[\"👤 Usuario\"]\n  end\n  subgraph Database\n    Database[\"🗄️ Base de Datos\"]\n  end\n\n  %% Interacciones\n\n  %% Estilos\n  classDef client fill:#233,stroke:#39c,stroke-width:2px,color:#fff\n  classDef server fill:#333,stroke:#f90,stroke-width:2px,color:#fff\n  classDef db fill:#444,stroke:#ccc,stroke-width:2px,color:#fff\n  classDef user fill:#111,stroke:#999,stroke-width:2px,color:#fff\n\n  class  client\n  class  server\n  class Database db\n  class User user\n  \n\x60\x60\x60"

/-- C9: what survives of the claim is determinism of the completed runs —
any two runs of the pipeline on the same (path, text) input lists that
produce output text produce character-identical text. The claim's
universal form fails on the code because of the scope bug in
`addExternalComponents`: on any input whose synthesized model contains
PrismaService (for example a single server file declaring
`export class PrismaService`), the run aborts with a ReferenceError
inside the synthesis step, before rendering, and produces no output text
at all — the final conjunct evaluates the pipeline at that failing
input. -/
theorem pipeline_referenceError_determinism (sf : List (String × String))
    (cf : List (String × String × String)) (out1 out2 : String)
    (h1 : runPipeline sf cf = some out1) (h2 : runPipeline sf cf = some out2) :
    out1 = out2 ∧
    out1.data = out2.data ∧
    runPipeline [("p.ts", contentC10)] [] = none := by
  have he : out1 = out2 := by
    rw [h1] at h2
    exact Option.some_inj.mp h2
  refine ⟨he, by rw [he], by decide⟩

set_option maxRecDepth 8192 in
theorem pipeline_referenceError_determinism_witness :
    runPipeline [] [] = some emptyRunOutput ∧
    (emptyRunOutput = emptyRunOutput ∧
     emptyRunOutput.data = emptyRunOutput.data ∧
     runPipeline [("p.ts", contentC10)] [] = none) :=
  ⟨by decide,
   pipeline_referenceError_determinism [] [] emptyRunOutput emptyRunOutput
     (by decide) (by decide)⟩

/-! ## C10 -/

/-- The self-interaction appended when the exported class itself is named
PrismaService. -/
def prismaSelf : Interaction :=
  { «from» := "PrismaService", «to» := "PrismaService", label := "usa",
    isAsync := false }

/-- C10: when a server file's first exported class is named
PrismaService, the match text `export class PrismaService` makes the
substring-based persistence check fire on the class's own declaration, so
the analyser appends the self-interaction PrismaService → PrismaService
labeled `"usa"` ("uses"); and for any final component map containing the
key PrismaService, that self-interaction passes the renderer's endpoint
check and the self-loop edge line appears in the rendered interaction
section. -/
theorem prismaService_self_loop (fp content : String) (comps comps2 : CompMap)
    (inters : List Interaction)
    (h : exportClassCapture content = some "PrismaService")
    (h2 : hasKey comps2 "PrismaService" = true) :
    prismaSelf ∈ (analyzeServerFile fp content comps inters).2 ∧
    containsStr (interactionSection comps2 (analyzeServerFile fp content comps inters).2)
      "  PrismaService -->|usa| PrismaService\n" = true := by
  have hc : containsStr content "PrismaService" = true :=
    exportClass_contains content "PrismaService" h
  have hsnd := analyzeServerFile_snd fp content comps inters "PrismaService" h
  have hpt : prismaTail "PrismaService" content = [prismaSelf] := by
    unfold prismaTail
    rw [if_pos hc]
    rfl
  have hmem : prismaSelf ∈ (analyzeServerFile fp content comps inters).2 := by
    rw [hsnd, hpt]
    exact List.mem_append_right _ (List.mem_singleton_self _)
  refine ⟨hmem, ?_⟩
  rw [interactionSection_eq]
  have hbe : bothEndpoints comps2 prismaSelf = true := by
    unfold hasKey at h2
    unfold bothEndpoints prismaSelf
    simp [h2]
  have hline : edgeLine prismaSelf = "  PrismaService -->|usa| PrismaService\n" := by
    decide
  have hlinemem : "  PrismaService -->|usa| PrismaService\n" ∈
      (((analyzeServerFile fp content comps inters).2.filter
        (bothEndpoints comps2)).map edgeLine) := by
    rw [← hline]
    exact List.mem_map_of_mem _ (List.mem_filter.mpr ⟨hmem, hbe⟩)
  exact containsStr_sconcat _ _ hlinemem

theorem prismaService_self_loop_witness :
    exportClassCapture contentC10 = some "PrismaService" ∧
    hasKey compsC10 "PrismaService" = true ∧
    (prismaSelf ∈ (analyzeServerFile "p.ts" contentC10 [] []).2 ∧
     containsStr (interactionSection compsC10 (analyzeServerFile "p.ts" contentC10 [] []).2)
       "  PrismaService -->|usa| PrismaService\n" = true) :=
  ⟨by decide, by decide,
   prismaService_self_loop "p.ts" contentC10 [] compsC10 [] (by decide) (by decide)⟩
